import Mathlib

/-! Verification of `lib/log.h` (mount-zip).

A shallow embedding of the logging and timing helpers declared in `lib/log.h`:
the severity enum and the `LOG_IS_ON` / `LOG` / `PLOG` macros, the `Logger`
record accumulator, the `StrCat` helper, the `Timer` and the `Beat` periodic
gate.

Conventions of the embedding:

* `LogLevel` enumerators carry the `<syslog.h>` priority values.
* A value appended with `operator<<` is represented by the text that
  `std::ostringstream` inserts for it (its rendering).
* The stream a `Timer` is written to carries its format state (`OStream`):
  base, sign and padding flags, width, fill and digit grouping.
* `std::chrono::steady_clock` ticks and `int` are machine integers.  They are
  embedded in `Int`; every arithmetic result is reduced to the two's
  complement range of its type (`wrapInt64`, `wrapInt32`).  Signed overflow is
  undefined in C++; wrap-around is what the compiled code does.
-/

namespace MountZip

/-! ## Severity model -/

/-- Priority `LOG_ERR` of `<syslog.h>`. -/
def LOG_ERR : Int := 3

/-- Priority `LOG_WARNING` of `<syslog.h>`. -/
def LOG_WARNING : Int := 4

/-- Priority `LOG_INFO` of `<syslog.h>`. -/
def LOG_INFO : Int := 6

/-- Priority `LOG_DEBUG` of `<syslog.h>`. -/
def LOG_DEBUG : Int := 7

/-- The scoped enum `enum class LogLevel`. -/
inductive LogLevel where
  | DEBUG
  | INFO
  | WARNING
  | ERROR
deriving DecidableEq, Repr

namespace LogLevel

/-- Underlying value of an enumerator, as given in the enum definition. -/
def toInt : LogLevel → Int
  | DEBUG => LOG_DEBUG
  | INFO => LOG_INFO
  | WARNING => LOG_WARNING
  | ERROR => LOG_ERR

/-- The built-in `<=` of a scoped enum compares the underlying values. -/
def le (a b : LogLevel) : Bool := decide (a.toInt ≤ b.toInt)

/-- All enumerators, in declaration order. -/
def all : List LogLevel := [DEBUG, INFO, WARNING, ERROR]

end LogLevel

/-- The macro `#define LOG_IS_ON(level) (LogLevel::level <= g_log_level)`;
the global `g_log_level` is passed explicitly. -/
def LOG_IS_ON (g_log_level : LogLevel) (level : LogLevel) : Bool :=
  LogLevel.le level g_log_level

/-! ## Process state seen by a log statement -/

/-- One call of the sink, `syslog(priority, "%s", message)`. -/
structure SinkCall where
  level : LogLevel
  message : String
deriving DecidableEq, Repr

/-- The part of the process state that the operand expressions of a log
statement can read and write: `errno` and the program variables. -/
structure Caller (σ : Type) where
  errno : Int
  vars : σ
deriving DecidableEq

/-- Process state around a log statement. -/
structure Process (σ : Type) where
  g_log_level : LogLevel
  caller : Caller σ
  sink : List SinkCall
deriving DecidableEq

/-- Modelled from the spec: `SetLogLevel` is only declared in `log.h`; per the
spec it "replaces the global threshold" and does nothing else. -/
def SetLogLevel {σ : Type} (level : LogLevel) (p : Process σ) : Process σ :=
  { p with g_log_level := level }

/-! ## Log record accumulator -/

/-- The class `Logger`: the severity, the captured error code and the text of
`oss_` accumulated so far. -/
structure Logger where
  level_ : LogLevel
  err_ : Int
  oss_ : String
deriving DecidableEq, Repr

namespace Logger

/-- Constructor `explicit Logger(LogLevel const level, error_t err = -1)`: the default of
`err` is written out by the callers. -/
def new (level : LogLevel) (err : Int) : Logger :=
  { level_ := level, err_ := err, oss_ := "" }

/-- Append `Logger&& operator<<(const auto& a) &&`: `oss_ << a`, then the same
record is handed back; `a` stands for the text inserted for the value. -/
def shl (l : Logger) (a : String) : Logger :=
  { l with oss_ := l.oss_ ++ a }

/-- Modelled from the spec: `Logger::~Logger` is only declared in `log.h`.
Per the spec, finalizing renders the accumulated text and, if an error code
was captured, the description of that code after a separator; the unset
sentinel (`-1`, the constructor default) renders no error segment.  The
rendered text and the severity go to the sink as one message.  The
description `strerror` and the separator are parameters. -/
def finalize (strerror : Int → String) (sep : String) (l : Logger) : SinkCall :=
  { level := l.level_
    message := if l.err_ = -1 then l.oss_ else l.oss_ ++ sep ++ strerror l.err_ }

end Logger

/-- An operand expression of a chained `<<`: evaluating it may read and write
`errno` and the program variables, and yields the text of its value. -/
abbrev Operand (σ : Type) := Caller σ → String × Caller σ

/-- Evaluation of `record << a1 << ... << an`: operands are evaluated and
appended left to right, each operand after the append before it. -/
def appendChain {σ : Type} : List (Operand σ) → Logger → Caller σ → Logger × Caller σ
  | [], l, c => (l, c)
  | a :: rest, l, c => appendChain rest (l.shl (a c).1) (a c).2

/-- Result of executing one log statement: the state afterwards and the
temporary `Logger` the statement constructed, as it was when destroyed
(`none` when no `Logger` was constructed). -/
structure Outcome (σ : Type) where
  proc : Process σ
  record : Option Logger

/-- The condition of the `if` in `#define LOG(level)`. -/
def LOG_cond (g_log_level : LogLevel) (level : LogLevel) : Bool :=
  LogLevel.le level g_log_level

/-- The condition of the `if` in `#define PLOG(level)`. -/
def PLOG_cond (g_log_level : LogLevel) (level : LogLevel) : Bool :=
  LogLevel.le level g_log_level

/-- The statement `LOG(level) << a1 << ... << an;`, that is
`if (LogLevel::level <= g_log_level) Logger(LogLevel::level) << a1 ... ;`.
The temporary is destroyed at the end of the full expression. -/
def LOG {σ : Type} (strerror : Int → String) (sep : String) (level : LogLevel)
    (args : List (Operand σ)) (p : Process σ) : Outcome σ :=
  if LOG_cond p.g_log_level level then
    let r := appendChain args (Logger.new level (-1)) p.caller
    { proc := { p with caller := r.2, sink := p.sink ++ [r.1.finalize strerror sep] }
      record := some r.1 }
  else
    { proc := p, record := none }

/-- The statement `PLOG(level) << a1 << ... << an;`: as `LOG`, the record
being constructed with the current `errno`. -/
def PLOG {σ : Type} (strerror : Int → String) (sep : String) (level : LogLevel)
    (args : List (Operand σ)) (p : Process σ) : Outcome σ :=
  if PLOG_cond p.g_log_level level then
    let r := appendChain args (Logger.new level p.caller.errno) p.caller
    { proc := { p with caller := r.2, sink := p.sink ++ [r.1.finalize strerror sep] }
      record := some r.1 }
  else
    { proc := p, record := none }

/-- The texts of the operands `a1 .. an` in call order, each evaluated in the
state left by the operands before it. -/
def renderings {σ : Type} : List (Operand σ) → Caller σ → List String
  | [], _ => []
  | a :: rest, c => (a c).1 :: renderings rest (a c).2

/-- The state left after evaluating the operands `a1 .. an` in order. -/
def afterOperands {σ : Type} : List (Operand σ) → Caller σ → Caller σ
  | [], c => c
  | a :: rest, c => afterOperands rest (a c).2

/-! ## Periodic gate -/

/-- Reduction to the range of a 64-bit two's complement integer, the
representation of `steady_clock` ticks. -/
def wrapInt64 (x : Int) : Int := (x + 2 ^ 63) % 2 ^ 64 - 2 ^ 63

/-- Reduction to the range of `int` (32-bit two's complement). -/
def wrapInt32 (x : Int) : Int := (x + 2 ^ 31) % 2 ^ 32 - 2 ^ 31

/-- Ticks of `Clock::duration` per millisecond: `steady_clock` counts
nanoseconds. -/
def ticksPerMillisecond : Int := 1000000

/-- The class `Beat`: `period_` and `next_` in clock ticks, `count_`. -/
structure Beat where
  period_ : Int
  next_ : Int
  count_ : Int
deriving DecidableEq, Repr

namespace Beat

/-- Default member initializers, run with `Clock::now()` reading `now`:
`period_ = std::chrono::milliseconds(1000)`, `next_ = Clock::now() + period_`,
`count_ = 0`. -/
def new (now : Int) : Beat :=
  { period_ := 1000 * ticksPerMillisecond
    next_ := wrapInt64 (now + 1000 * ticksPerMillisecond)
    count_ := 0 }

/-- The query `explicit operator bool()`, run with `Clock::now()` reading `now`:
the returned value and the state afterwards. -/
def toBool (b : Beat) (now : Int) : Bool × Beat :=
  if now < b.next_ then
    (false, b)
  else
    (true, { b with count_ := wrapInt32 (b.count_ + 1), next_ := wrapInt64 (now + b.period_) })

/-- The accessor `int Count() const`: the returned value and the (same) state. -/
def Count (b : Beat) : Int × Beat := (b.count_, b)

/-- A sequence of queries `operator bool` at the given clock readings, in
order: the list of returned values and the final state. -/
def run : Beat → List Int → List Bool × Beat
  | b, [] => ([], b)
  | b, t :: ts =>
    let r := b.toBool t
    let rest := run r.2 ts
    (r.1 :: rest.1, rest.2)

/-- The default member initializers with the constant `milliseconds(1000)`
replaced by a period of `P` ticks; `Beat.new now` is `Beat.init P now` at
`P = 1000 * ticksPerMillisecond`. -/
def init (P : Int) (now : Int) : Beat :=
  { period_ := P
    next_ := wrapInt64 (now + P)
    count_ := 0 }

end Beat

/-! ## Output stream

The state of a `std::ostream` that its formatted insertions read and write:
the characters written so far, whether the stream is good, the format flags
that govern integers (`basefield`, `adjustfield`, `showpos`, `showbase`,
`uppercase`), the field width, the fill character and the digit grouping of
the imbued locale's `numpunct`.  Integer insertion follows the four stages of
`std::num_put::do_put` of the standard facets; a user-supplied `num_put` or
`ctype` facet and the stream's error handling beyond the sentry check are not
modelled. -/

/-- The `basefield` group of the format flags; `dec` also stands for every
setting other than `oct` alone or `hex` alone. -/
inductive Basefield where
  | dec
  | oct
  | hex
deriving DecidableEq, Repr

/-- The `adjustfield` group of the format flags; `right` also stands for no
bit set. -/
inductive Adjustfield where
  | left
  | right
  | internal
deriving DecidableEq, Repr

/-- The state of a `std::ostream`.  A group size `0` in `grouping` stands for
any size that ends the grouping (`<= 0` or `CHAR_MAX`). -/
structure OStream where
  text : String
  good : Bool
  basefield : Basefield
  adjustfield : Adjustfield
  showpos : Bool
  showbase : Bool
  uppercase : Bool
  width : Nat
  fill : Char
  thousands_sep : Char
  grouping : List Nat
deriving DecidableEq, Repr

/-- Insertion of thousands separators into a digit sequence given least
significant digit first: while more digits remain than the current group size
(and that size is positive), a group is split off; the last size repeats.  The
first argument bounds the number of groups; the number of digits is enough. -/
def groupDigitsRev (sep : Char) : Nat → List Nat → List Char → List Char
  | 0, _, ds => ds
  | fuel + 1, gs, ds =>
    match gs with
    | [] => ds
    | g :: rest =>
      if g = 0 ∨ ds.length ≤ g then ds
      else ds.take g ++ sep :: groupDigitsRev sep fuel (if rest = [] then [g] else rest) (ds.drop g)

namespace OStream

/-- A stream right after `std::basic_ios::init`, holding the given text: good,
flags `skipws | dec`, width 0, fill `' '`, the classic locale (no grouping). -/
def init (text : String) : OStream :=
  { text := text, good := true, basefield := Basefield.dec, adjustfield := Adjustfield.right
    showpos := false, showbase := false, uppercase := false, width := 0, fill := ' '
    thousands_sep := ',', grouping := [] }

/-- Stage 1, sign of a `long` value: `%d` writes `-` for a negative value and,
with `showpos`, `+` otherwise; `%o` and `%x` write no sign. -/
def signOf (s : OStream) (v : Int) : List Char :=
  match s.basefield with
  | Basefield.dec => if v < 0 then ['-'] else if s.showpos then ['+'] else []
  | _ => []

/-- Stage 1, base mark of `showbase` (the `#` flag): `0` for `%o`, `0x` or
`0X` for `%x`, on a nonzero value; none for `%d`. -/
def baseMark (s : OStream) (v : Int) : List Char :=
  match s.basefield with
  | Basefield.dec => []
  | Basefield.oct => if s.showbase ∧ v ≠ 0 then ['0'] else []
  | Basefield.hex =>
    if s.showbase ∧ v ≠ 0 then (if s.uppercase then ['0', 'X'] else ['0', 'x']) else []

/-- Stage 1, digits of a `long` value: the decimal digits of its magnitude for
`%d`; for `%o` and `%x` the digits of the value converted to `unsigned long`
(64 bits), upper case with `uppercase`. -/
def digitsOf (s : OStream) (v : Int) : List Char :=
  match s.basefield with
  | Basefield.dec => Nat.toDigits 10 v.natAbs
  | Basefield.oct => Nat.toDigits 8 (v % 2 ^ 64).toNat
  | Basefield.hex =>
    if s.uppercase then (Nat.toDigits 16 (v % 2 ^ 64).toNat).map Char.toUpper
    else Nat.toDigits 16 (v % 2 ^ 64).toNat

/-- Stage 2: the digits with the locale's thousands separators inserted. -/
def groupedDigits (s : OStream) (v : Int) : List Char :=
  (groupDigitsRev s.thousands_sep (s.digitsOf v).length s.grouping (s.digitsOf v).reverse).reverse

/-- Stage 3: the fill characters that pad a field of `len` characters to the
stream's width. -/
def padding (s : OStream) (len : Nat) : List Char :=
  List.replicate (s.width - len) s.fill

/-- The characters that `out << v` writes for a `long` value `v`: sign, base
mark and grouped digits, padded to the width on the side `adjustfield` names
(`internal`: after the sign, else after `0x`/`0X`, else in front). -/
def longField (s : OStream) (v : Int) : List Char :=
  let sg := s.signOf v
  let bm := s.baseMark v
  let ds := s.groupedDigits v
  let pd := s.padding (sg.length + bm.length + ds.length)
  match s.adjustfield with
  | Adjustfield.left => sg ++ bm ++ ds ++ pd
  | Adjustfield.right => pd ++ sg ++ bm ++ ds
  | Adjustfield.internal =>
    if sg ≠ [] then sg ++ pd ++ bm ++ ds
    else if s.basefield = Basefield.hex ∧ bm ≠ [] then bm ++ pd ++ ds
    else pd ++ sg ++ bm ++ ds

/-- The formatted insertion `out << v` of a `long`: nothing happens on a stream
that is not good; otherwise the field is written and the width reset to 0
(stage 4). -/
def putLong (s : OStream) (v : Int) : OStream :=
  if s.good then
    { s with text := s.text ++ String.mk (s.longField v), width := 0 }
  else s

/-- The formatted insertion `out << str` of a character string: nothing
happens on a stream that is not good; otherwise the string is written, padded
to the width (behind it for `left`, in front otherwise), and the width reset
to 0. -/
def putString (s : OStream) (a : String) : OStream :=
  if s.good then
    { s with
      text := s.text ++ String.mk (match s.adjustfield with
        | Adjustfield.left => a.data ++ s.padding a.data.length
        | _ => s.padding a.data.length ++ a.data)
      width := 0 }
  else s

end OStream

/-- The digit grouping of a locale inserts no separator into a numeral of
`n` digits: there is no group size, or the first one ends the grouping or is
not exceeded. -/
def groupsNothing (grouping : List Nat) (n : Nat) : Prop :=
  match grouping with
  | [] => True
  | g :: _ => g = 0 ∨ n ≤ g

instance (grouping : List Nat) (n : Nat) : Decidable (groupsNothing grouping n) := by
  unfold groupsNothing
  split <;> infer_instance

/-! ## Elapsed-time timer -/

/-- The conversion `std::chrono::duration_cast<std::chrono::milliseconds>` of a
tick count followed by `.count()`: integer division by the ticks per
millisecond, truncating toward zero. -/
def durationCastMilliseconds (ticks : Int) : Int := Int.tdiv ticks ticksPerMillisecond

/-- The struct `Timer`: the start time in clock ticks. -/
structure Timer where
  start : Int
deriving DecidableEq, Repr

namespace Timer

/-- Default member initializer `start = Clock::now()`, run with the clock
reading `now`. -/
def new (now : Int) : Timer := { start := now }

/-- The method `void Reset() { start = Clock::now(); }`, run with the clock
reading `now`. -/
def Reset (t : Timer) (now : Int) : Timer := { t with start := now }

/-- The method `Milliseconds() const`, run with the clock reading `now`:
`duration_cast<milliseconds>(Clock::now() - start).count()`. -/
def Milliseconds (t : Timer) (now : Int) : Int :=
  durationCastMilliseconds (wrapInt64 (now - t.start))

/-- The friend `operator<<(std::ostream& out, const Timer& timer)`, run with
the clock reading `now`: `out << timer.Milliseconds() << " ms"`, the two
formatted insertions of the stream in that order. -/
def print (out : OStream) (t : Timer) (now : Int) : OStream :=
  (out.putLong (t.Milliseconds now)).putString " ms"

end Timer

/-! ## Text concatenation helper -/

/-- The function template `StrCat(Args&&... args)`: a fresh
`std::ostringstream out`, the left fold `(out << ... << args)`, then
`out.str()`.  Each argument stands for the text inserted for its value. -/
def StrCat (args : List String) : String :=
  args.foldl (fun out a => out ++ a) ""

/-- The concatenation `render(a1) ++ ... ++ render(an)` in argument order, by
recursion on the argument list. -/
def concatTexts : List String → String
  | [] => ""
  | a :: rest => a ++ concatTexts rest

/-- An operand with a stateless rendering: evaluating it has no side effect
and yields the given text. -/
def valueOperand {σ : Type} (text : String) : Operand σ := fun c => (text, c)

/-- Importance order of the glossary, DEBUG < INFO < WARNING < ERROR, as the
position in that chain. -/
def LogLevel.importance : LogLevel → Nat
  | LogLevel.DEBUG => 0
  | LogLevel.INFO => 1
  | LogLevel.WARNING => 2
  | LogLevel.ERROR => 3

/-- The value fits a 64-bit two's complement integer. -/
def InInt64 (x : Int) : Prop := -2 ^ 63 ≤ x ∧ x < 2 ^ 63

/-- The value fits `int`. -/
def InInt32 (x : Int) : Prop := -2 ^ 31 ≤ x ∧ x < 2 ^ 31

instance (x : Int) : Decidable (InInt64 x) := by unfold InInt64; infer_instance

instance (x : Int) : Decidable (InInt32 x) := by unfold InInt32; infer_instance

/-! ## Sample inputs -/

/-- A process with threshold `WARNING`, `errno = 2`, one program variable used
as an evaluation counter (initially 0) and an empty sink. -/
def sampleProcess : Process Nat :=
  { g_log_level := LogLevel.WARNING, caller := { errno := 2, vars := 0 }, sink := [] }

/-- An operand whose evaluation increments the counter and sets `errno`. -/
def countingOperand (text : String) : Operand Nat :=
  fun c => (text, { errno := 5, vars := c.vars + 1 })

/-- A stand-in for the platform's error descriptions. -/
def sampleStrerror (e : Int) : String := if e = 2 then "No such file" else "Error"

/-- A gate with the default period, due at tick `10^9`, whose count has
reached `INT_MAX`. -/
def beatAtIntMax : Beat :=
  { period_ := 1000000000, next_ := 1000000000, count_ := 2147483647 }

/-- The largest clock reading, `INT64_MAX` ticks. -/
def lastTick : Int := 9223372036854775807

/-- A fresh stream after `out << std::hex`. -/
def hexStream : OStream := { OStream.init "" with basefield := Basefield.hex }

/-- A fresh stream after `out << std::showpos`. -/
def showposStream : OStream := { OStream.init "" with showpos := true }

/-- A fresh stream after `out << std::setfill('*') << std::setw(6)`. -/
def widthStream : OStream := { OStream.init "" with width := 6, fill := '*' }

/-- A fresh stream imbued with a locale that groups digits by three, separated
by commas. -/
def groupingStream : OStream := { OStream.init "" with grouping := [3] }

/-- A fresh stream after `out.setstate(std::ios_base::failbit)`. -/
def failedStream : OStream := { OStream.init "" with good := false }

/-! ## Theorems: severity model and log statements -/

theorem LogLevel.le_iff (a b : LogLevel) : LogLevel.le a b = true ↔ a.toInt ≤ b.toInt := by
  simp [LogLevel.le]

theorem appendChain_oss {σ : Type} (args : List (Operand σ)) (l : Logger) (c : Caller σ) :
    (appendChain args l c).1.oss_ = l.oss_ ++ String.join (renderings args c) := by
  induction args generalizing l c with
  | nil =>
    apply String.ext
    simp [appendChain, renderings]
  | cons a rest ih =>
    rw [appendChain, ih]
    apply String.ext
    simp [renderings, Logger.shl, List.append_assoc]

theorem appendChain_level {σ : Type} (args : List (Operand σ)) (l : Logger) (c : Caller σ) :
    (appendChain args l c).1.level_ = l.level_ ∧ (appendChain args l c).1.err_ = l.err_ := by
  induction args generalizing l c with
  | nil => simp [appendChain]
  | cons a rest ih =>
    rw [appendChain]
    simpa [Logger.shl] using ih (l.shl (a c).1) (a c).2

theorem appendChain_caller {σ : Type} (args : List (Operand σ)) (l : Logger) (c : Caller σ) :
    (appendChain args l c).2 = afterOperands args c := by
  induction args generalizing l c with
  | nil => simp [appendChain, afterOperands]
  | cons a rest ih => rw [appendChain, afterOperands, ih]

/-- C1: once the process-wide threshold holds `X`, `LOG_IS_ON(L)` is true if
and only if the enum value of `L` is at most the enum value of `X`, the enum
values being ERROR=3, WARNING=4, INFO=6, DEBUG=7; so querying every level
yields exactly the levels whose rank is at most the rank of `X`. -/
theorem LOG_IS_ON_iff_rank_le {σ : Type} (p : Process σ) (X L : LogLevel)
    (h : p.g_log_level = X) :
    (LOG_IS_ON p.g_log_level L = true ↔ L.toInt ≤ X.toInt) ∧
    (LogLevel.ERROR.toInt = 3 ∧ LogLevel.WARNING.toInt = 4 ∧
      LogLevel.INFO.toInt = 6 ∧ LogLevel.DEBUG.toInt = 7) ∧
    LogLevel.all.filter (LOG_IS_ON p.g_log_level) =
      LogLevel.all.filter (fun K => decide (K.toInt ≤ X.toInt)) := by
  subst h
  refine ⟨LogLevel.le_iff _ _, ⟨rfl, rfl, rfl, rfl⟩, ?_⟩
  apply List.filter_congr
  intro K _
  simp [LOG_IS_ON, LogLevel.le]

/-- Witness of C1: after `SetLogLevel(INFO)` the threshold holds `INFO`, and
the theorem applies at level `DEBUG`. -/
theorem LOG_IS_ON_iff_rank_le_witness :
    (SetLogLevel LogLevel.INFO sampleProcess).g_log_level = LogLevel.INFO ∧
    ((LOG_IS_ON (SetLogLevel LogLevel.INFO sampleProcess).g_log_level LogLevel.DEBUG = true ↔
        LogLevel.DEBUG.toInt ≤ LogLevel.INFO.toInt) ∧
      (LogLevel.ERROR.toInt = 3 ∧ LogLevel.WARNING.toInt = 4 ∧
        LogLevel.INFO.toInt = 6 ∧ LogLevel.DEBUG.toInt = 7) ∧
      LogLevel.all.filter (LOG_IS_ON (SetLogLevel LogLevel.INFO sampleProcess).g_log_level) =
        LogLevel.all.filter (fun K => decide (K.toInt ≤ LogLevel.INFO.toInt))) :=
  ⟨rfl, LOG_IS_ON_iff_rank_le (SetLogLevel LogLevel.INFO sampleProcess) LogLevel.INFO
    LogLevel.DEBUG rfl⟩

/-- C2: under threshold `T`, for a level `L` whose rank is greater than the
rank of `T`, a `LOG(L)` or `PLOG(L)` statement with any chain of appends
constructs no `Logger` and leaves the whole process state as it was: no
operand is evaluated (program variables such as a side-effect counter, and
`errno`, are unchanged) and the sink receives no call. -/
theorem LOG_PLOG_disabled_no_effect {σ : Type} (strerror : Int → String) (sep : String)
    (T L : LogLevel) (args : List (Operand σ)) (p : Process σ)
    (hT : p.g_log_level = T) (hL : T.toInt < L.toInt) :
    (LOG strerror sep L args p).record = none ∧
    (LOG strerror sep L args p).proc = p ∧
    (PLOG strerror sep L args p).record = none ∧
    (PLOG strerror sep L args p).proc = p := by
  subst hT
  have hle : LogLevel.le L p.g_log_level = false := by
    simp only [LogLevel.le, decide_eq_false_iff_not, not_le]
    exact hL
  simp [LOG, PLOG, LOG_cond, PLOG_cond, hle]

/-- Witness of C2: threshold `WARNING`, level `INFO`, two operands that would
each increment the counter. -/
theorem LOG_PLOG_disabled_no_effect_witness :
    sampleProcess.g_log_level = LogLevel.WARNING ∧
    LogLevel.WARNING.toInt < LogLevel.INFO.toInt ∧
    ((LOG sampleStrerror ": " LogLevel.INFO
        [countingOperand "a", countingOperand "b"] sampleProcess).record = none ∧
      (LOG sampleStrerror ": " LogLevel.INFO
        [countingOperand "a", countingOperand "b"] sampleProcess).proc = sampleProcess ∧
      (PLOG sampleStrerror ": " LogLevel.INFO
        [countingOperand "a", countingOperand "b"] sampleProcess).record = none ∧
      (PLOG sampleStrerror ": " LogLevel.INFO
        [countingOperand "a", countingOperand "b"] sampleProcess).proc = sampleProcess) :=
  ⟨rfl, by decide, LOG_PLOG_disabled_no_effect sampleStrerror ": " LogLevel.WARNING
    LogLevel.INFO [countingOperand "a", countingOperand "b"] sampleProcess rfl (by decide)⟩

/-- C3: under threshold `T`, for a level `L` whose rank is at most the rank of
`T` and any operands `a1 .. an`, the statement `LOG(L) << a1 << ... << an`
adds exactly one sink call, at level `L`, whose message is the concatenation
of the operands' texts in call order (the empty string when there is no
operand); each operand has been evaluated once, in order. -/
theorem LOG_enabled_one_sink_call {σ : Type} (strerror : Int → String) (sep : String)
    (T L : LogLevel) (args : List (Operand σ)) (p : Process σ)
    (hT : p.g_log_level = T) (hL : L.toInt ≤ T.toInt) :
    (LOG strerror sep L args p).proc.sink =
      p.sink ++ [{ level := L, message := String.join (renderings args p.caller) }] ∧
    (LOG strerror sep L [] p).proc.sink = p.sink ++ [{ level := L, message := "" }] ∧
    (LOG strerror sep L args p).proc.caller = afterOperands args p.caller := by
  subst hT
  have hle : LogLevel.le L p.g_log_level = true := (LogLevel.le_iff _ _).2 hL
  have hl := appendChain_level args (Logger.new L (-1)) p.caller
  have ho := appendChain_oss args (Logger.new L (-1)) p.caller
  refine ⟨?_, ?_, ?_⟩
  · simp only [LOG, LOG_cond, hle, if_true, Logger.finalize, hl.1, hl.2, ho]
    simp [Logger.new]
  · simp [LOG, LOG_cond, hle, Logger.finalize, appendChain, Logger.new]
  · simp only [LOG, LOG_cond, hle, if_true]
    exact appendChain_caller _ _ _

/-- Witness of C3: threshold `WARNING`, level `ERROR`, two operands. -/
theorem LOG_enabled_one_sink_call_witness :
    sampleProcess.g_log_level = LogLevel.WARNING ∧
    LogLevel.ERROR.toInt ≤ LogLevel.WARNING.toInt ∧
    ((LOG sampleStrerror ": " LogLevel.ERROR
        [countingOperand "a", countingOperand "b"] sampleProcess).proc.sink =
      sampleProcess.sink ++ [{ level := LogLevel.ERROR, message := (String.join
        (renderings [countingOperand "a", countingOperand "b"] sampleProcess.caller)) }] ∧
    (LOG sampleStrerror ": " LogLevel.ERROR ([] : List (Operand Nat)) sampleProcess).proc.sink =
      sampleProcess.sink ++ [{ level := LogLevel.ERROR, message := "" }] ∧
    (LOG sampleStrerror ": " LogLevel.ERROR
        [countingOperand "a", countingOperand "b"] sampleProcess).proc.caller =
      afterOperands [countingOperand "a", countingOperand "b"] sampleProcess.caller) :=
  ⟨rfl, by decide, LOG_enabled_one_sink_call sampleStrerror ": " LogLevel.WARNING
    LogLevel.ERROR [countingOperand "a", countingOperand "b"] sampleProcess rfl (by decide)⟩

/-- C4: for every level `L` and threshold `T`, the condition guarding record
construction in `LOG(L)` and the one in `PLOG(L)` have the same truth value as
`LOG_IS_ON(L)`; a statement constructs a record if and only if `LOG_IS_ON(L)`
holds. -/
theorem LOG_PLOG_cond_eq_LOG_IS_ON {σ : Type} (strerror : Int → String) (sep : String)
    (T L : LogLevel) (args : List (Operand σ)) (p : Process σ) :
    LOG_cond T L = LOG_IS_ON T L ∧
    PLOG_cond T L = LOG_IS_ON T L ∧
    ((LOG strerror sep L args p).record.isSome = true ↔ LOG_IS_ON p.g_log_level L = true) ∧
    ((PLOG strerror sep L args p).record.isSome = true ↔ LOG_IS_ON p.g_log_level L = true) := by
  refine ⟨rfl, rfl, ?_, ?_⟩
  · cases h : LogLevel.le L p.g_log_level <;> simp [LOG, LOG_cond, LOG_IS_ON, h]
  · cases h : LogLevel.le L p.g_log_level <;> simp [PLOG, PLOG_cond, LOG_IS_ON, h]

/-! ## Theorems: periodic gate -/

theorem wrapInt64_of_in {x : Int} (h : InInt64 x) : wrapInt64 x = x := by
  unfold InInt64 at h
  unfold wrapInt64
  omega

theorem wrapInt32_of_in {x : Int} (h : InInt32 x) : wrapInt32 x = x := by
  unfold InInt32 at h
  unfold wrapInt32
  omega

theorem Beat.toBool_of_lt (b : Beat) (now : Int) (h : now < b.next_) :
    b.toBool now = (false, b) := by
  simp [Beat.toBool, h]

theorem Beat.toBool_of_le (b : Beat) (now : Int) (h : b.next_ ≤ now) :
    b.toBool now = (true, { b with count_ := wrapInt32 (b.count_ + 1),
                                   next_ := wrapInt64 (now + b.period_) }) := by
  have h2 : ¬ now < b.next_ := not_lt.mpr h
  simp [Beat.toBool, h2]

theorem Beat.toBool_of_le_fst (b : Beat) (now : Int) (h : b.next_ ≤ now) :
    (b.toBool now).1 = true := by
  rw [Beat.toBool_of_le b now h]

theorem Beat.toBool_of_le_count (b : Beat) (now : Int) (h : b.next_ ≤ now)
    (hc : InInt32 (b.count_ + 1)) : (b.toBool now).2.count_ = b.count_ + 1 := by
  rw [Beat.toBool_of_le b now h]
  exact wrapInt32_of_in hc

theorem Beat.toBool_of_le_next (b : Beat) (now : Int) (h : b.next_ ≤ now)
    (ht : InInt64 (now + b.period_)) : (b.toBool now).2.next_ = now + b.period_ := by
  rw [Beat.toBool_of_le b now h]
  exact wrapInt64_of_in ht

theorem Beat.toBool_period (b : Beat) (now : Int) : (b.toBool now).2.period_ = b.period_ := by
  unfold Beat.toBool
  split <;> rfl

/-- C5 (amended): for every `Beat` state and clock reading `now` with
`now >= next_` (the boundary included), the query returns DUE and leaves the
period unchanged; the new count is `count + 1` provided `count + 1` fits `int`,
and the new `next_` is `now + period` (from the current `now`) provided that
sum fits the 64-bit tick count. -/
theorem toBool_due (b : Beat) (now : Int) (h : b.next_ ≤ now) :
    (b.toBool now).1 = true ∧
    (b.toBool now).2.period_ = b.period_ ∧
    (InInt32 (b.count_ + 1) → (b.toBool now).2.count_ = b.count_ + 1) ∧
    (InInt64 (now + b.period_) → (b.toBool now).2.next_ = now + b.period_) := by
  exact ⟨Beat.toBool_of_le_fst b now h, Beat.toBool_period b now,
    Beat.toBool_of_le_count b now h, Beat.toBool_of_le_next b now h⟩

/-- Witness of C5 (amended): a gate constructed at tick 0, queried exactly at
its deadline. -/
theorem toBool_due_witness :
    (Beat.new 0).next_ ≤ 1000000000 ∧
    InInt32 ((Beat.new 0).count_ + 1) ∧
    InInt64 (1000000000 + (Beat.new 0).period_) ∧
    ((Beat.new 0).toBool 1000000000).1 = true ∧
    ((Beat.new 0).toBool 1000000000).2.period_ = (Beat.new 0).period_ ∧
    ((Beat.new 0).toBool 1000000000).2.count_ = (Beat.new 0).count_ + 1 ∧
    ((Beat.new 0).toBool 1000000000).2.next_ = 1000000000 + (Beat.new 0).period_ :=
  ⟨by decide, by decide, by decide,
    (toBool_due (Beat.new 0) 1000000000 (by decide)).1,
    (toBool_due (Beat.new 0) 1000000000 (by decide)).2.1,
    (toBool_due (Beat.new 0) 1000000000 (by decide)).2.2.1 (by decide),
    (toBool_due (Beat.new 0) 1000000000 (by decide)).2.2.2 (by decide)⟩

/-- Counterexample to C5 as stated: with the count at `INT_MAX` a due query
does not produce `count + 1`, and at the last clock reading the new `next_`
is not `now + period`. -/
theorem toBool_due_counterexample :
    (beatAtIntMax.next_ ≤ 2000000000 ∧
      (beatAtIntMax.toBool 2000000000).2.count_ = -2147483648 ∧
      (beatAtIntMax.toBool 2000000000).2.count_ ≠ beatAtIntMax.count_ + 1) ∧
    ((Beat.new 0).next_ ≤ lastTick ∧
      ((Beat.new 0).toBool lastTick).2.next_ = -9223372035854775809 ∧
      ((Beat.new 0).toBool lastTick).2.next_ ≠ lastTick + (Beat.new 0).period_) := by
  decide

/-- C6: for every `Beat` state and clock reading `now` with `now < next_`, the
query returns NOT-DUE and leaves period, `next_` and count unchanged. -/
theorem toBool_not_due (b : Beat) (now : Int) (h : now < b.next_) :
    (b.toBool now).1 = false ∧ (b.toBool now).2 = b := by
  rw [Beat.toBool_of_lt b now h]
  exact ⟨rfl, rfl⟩

/-- Witness of C6: a gate constructed at tick 0, queried one tick before its
deadline. -/
theorem toBool_not_due_witness :
    999999999 < (Beat.new 0).next_ ∧
    (((Beat.new 0).toBool 999999999).1 = false ∧
      ((Beat.new 0).toBool 999999999).2 = Beat.new 0) :=
  ⟨by decide, toBool_not_due (Beat.new 0) 999999999 (by decide)⟩

/-- C7 (amended): for every `Beat` with period `P > 0` and clock reading `now`
that is `k` whole periods or more past `next_` (any `k >= 0`): one query
returns DUE; it increases the count by exactly 1 provided `count + 1` fits
`int`; and, provided `now + P` fits the 64-bit tick count, any further query
at a reading in `[now, now + P)` returns NOT-DUE and leaves the state, hence
the count, unchanged. -/
theorem no_catch_up_burst (b : Beat) (now : Int) (k : Nat)
    (hP : 0 < b.period_) (hk : b.next_ + k * b.period_ ≤ now) :
    (b.toBool now).1 = true ∧
    (InInt32 (b.count_ + 1) → (b.toBool now).2.count_ = b.count_ + 1) ∧
    (InInt64 (now + b.period_) → ∀ t : Int, now ≤ t → t < now + b.period_ →
      ((b.toBool now).2.toBool t).1 = false ∧
      ((b.toBool now).2.toBool t).2 = (b.toBool now).2 ∧
      ((b.toBool now).2.toBool t).2.count_ = (b.toBool now).2.count_) := by
  have hkp : (0 : Int) ≤ k * b.period_ := mul_nonneg (Int.ofNat_nonneg k) (le_of_lt hP)
  have h : b.next_ ≤ now := by omega
  refine ⟨Beat.toBool_of_le_fst b now h, Beat.toBool_of_le_count b now h, ?_⟩
  intro ht t _ ht2
  have hn : (b.toBool now).2.next_ = now + b.period_ := Beat.toBool_of_le_next b now h ht
  have hlt : t < (b.toBool now).2.next_ := by rw [hn]; exact ht2
  rw [Beat.toBool_of_lt _ t hlt]
  exact ⟨rfl, rfl, rfl⟩

/-- Witness of C7 (amended): a gate constructed at tick 0 and first queried
three periods after its deadline, then again half a period later. -/
theorem no_catch_up_burst_witness :
    0 < (Beat.new 0).period_ ∧
    (Beat.new 0).next_ + (3 : Nat) * (Beat.new 0).period_ ≤ 4000000000 ∧
    InInt32 ((Beat.new 0).count_ + 1) ∧
    InInt64 (4000000000 + (Beat.new 0).period_) ∧
    (4000000000 : Int) ≤ 4500000000 ∧
    (4500000000 : Int) < 4000000000 + (Beat.new 0).period_ ∧
    ((Beat.new 0).toBool 4000000000).1 = true ∧
    ((Beat.new 0).toBool 4000000000).2.count_ = (Beat.new 0).count_ + 1 ∧
    ((((Beat.new 0).toBool 4000000000).2.toBool 4500000000).1 = false ∧
      (((Beat.new 0).toBool 4000000000).2.toBool 4500000000).2 =
        ((Beat.new 0).toBool 4000000000).2 ∧
      (((Beat.new 0).toBool 4000000000).2.toBool 4500000000).2.count_ =
        ((Beat.new 0).toBool 4000000000).2.count_) :=
  ⟨by decide, by decide, by decide, by decide, by decide, by decide,
    (no_catch_up_burst (Beat.new 0) 4000000000 3 (by decide) (by decide)).1,
    (no_catch_up_burst (Beat.new 0) 4000000000 3 (by decide) (by decide)).2.1 (by decide),
    (no_catch_up_burst (Beat.new 0) 4000000000 3 (by decide) (by decide)).2.2 (by decide)
      4500000000 (by decide) (by decide)⟩

/-- Counterexample to C7 as stated: with the count at `INT_MAX`, a query three
periods late does not increase the count by 1; and a gate queried at the last
clock reading returns DUE again on a further query at that same reading. -/
theorem no_catch_up_burst_counterexample :
    (0 < beatAtIntMax.period_ ∧
      beatAtIntMax.next_ + (3 : Nat) * beatAtIntMax.period_ ≤ 4000000000 ∧
      (beatAtIntMax.toBool 4000000000).1 = true ∧
      (beatAtIntMax.toBool 4000000000).2.count_ ≠ beatAtIntMax.count_ + 1) ∧
    (0 < (Beat.new 0).period_ ∧
      (Beat.new 0).next_ + (3 : Nat) * (Beat.new 0).period_ ≤ lastTick ∧
      ((Beat.new 0).toBool lastTick).1 = true ∧
      lastTick ≤ lastTick ∧ lastTick < lastTick + (Beat.new 0).period_ ∧
      (((Beat.new 0).toBool lastTick).2.toBool lastTick).1 = true ∧
      (((Beat.new 0).toBool lastTick).2.toBool lastTick).2.count_ = 2) := by
  decide

/-- C9 (amended): for every construction instant `t0` of a `Beat` such that
`t0 + period` fits the 64-bit tick count, and every clock reading `now`
earlier than `t0 + period` at which the first query is made, that first query
returns NOT-DUE and leaves the count at 0. -/
theorem first_query_not_due (t0 now : Int)
    (ht : InInt64 (t0 + (Beat.new t0).period_))
    (h : now < t0 + (Beat.new t0).period_) :
    ((Beat.new t0).toBool now).1 = false ∧
    ((Beat.new t0).toBool now).2 = Beat.new t0 ∧
    ((Beat.new t0).toBool now).2.Count.1 = 0 := by
  have hn : (Beat.new t0).next_ = t0 + (Beat.new t0).period_ := wrapInt64_of_in ht
  have hlt : now < (Beat.new t0).next_ := by rw [hn]; exact h
  rw [Beat.toBool_of_lt _ now hlt]
  exact ⟨rfl, rfl, rfl⟩

/-- Witness of C9 (amended): constructed at tick 5, first queried at tick 5. -/
theorem first_query_not_due_witness :
    InInt64 (5 + (Beat.new 5).period_) ∧
    (5 : Int) < 5 + (Beat.new 5).period_ ∧
    (((Beat.new 5).toBool 5).1 = false ∧
      ((Beat.new 5).toBool 5).2 = Beat.new 5 ∧
      ((Beat.new 5).toBool 5).2.Count.1 = 0) :=
  ⟨by decide, by decide, first_query_not_due 5 5 (by decide) (by decide)⟩

/-- Counterexample to C9 as stated: a gate constructed at tick 0 and first
queried one period later returns DUE and has count 1; a gate constructed at
the last clock reading returns DUE when first queried at that same reading. -/
theorem first_query_not_due_counterexample :
    (((Beat.new 0).toBool 1000000000).1 = true ∧
      ((Beat.new 0).toBool 1000000000).2.Count.1 = 1) ∧
    (((Beat.new lastTick).toBool lastTick).1 = true ∧
      ((Beat.new lastTick).toBool lastTick).2.Count.1 = 1) := by
  decide

theorem Beat.run_nil (b : Beat) : b.run [] = ([], b) := rfl

theorem Beat.run_cons (b : Beat) (t : Int) (ts : List Int) :
    b.run (t :: ts) = ((b.toBool t).1 :: ((b.toBool t).2.run ts).1, ((b.toBool t).2.run ts).2) :=
  rfl

theorem Beat.run_length (b : Beat) (ts : List Int) : (b.run ts).1.length = ts.length := by
  induction ts generalizing b with
  | nil => rfl
  | cons t ts ih => simp [Beat.run_cons, ih]

theorem Beat.run_count (b : Beat) (ts : List Int) (h0 : 0 ≤ b.count_)
    (h : b.count_ + ((b.run ts).1.count true : Int) < 2 ^ 31) :
    (b.run ts).2.count_ = b.count_ + ((b.run ts).1.count true : Int) := by
  induction ts generalizing b with
  | nil => simp [Beat.run_nil]
  | cons t ts ih =>
    rw [Beat.run_cons] at h ⊢
    by_cases hlt : t < b.next_
    · rw [Beat.toBool_of_lt b t hlt] at h ⊢
      simp only [List.count_cons, Bool.false_eq_true, beq_iff_eq, if_false, Nat.add_zero] at h ⊢
      exact ih b h0 h
    · have hle : b.next_ ≤ t := not_lt.1 hlt
      rw [Beat.toBool_of_le b t hle] at h ⊢
      simp only [List.count_cons, beq_self_eq_true, if_true, Nat.cast_add, Nat.cast_one] at h ⊢
      have hnn : (0 : Int) ≤ ((List.count true
          (Beat.run { b with count_ := wrapInt32 (b.count_ + 1),
                             next_ := wrapInt64 (t + b.period_) } ts).1 : Nat) : Int) :=
        Int.ofNat_nonneg _
      have hw : wrapInt32 (b.count_ + 1) = b.count_ + 1 := by
        apply wrapInt32_of_in
        unfold InInt32
        constructor <;> omega
      simp only [hw] at h ⊢
      have := ih { b with count_ := b.count_ + 1, next_ := wrapInt64 (t + b.period_) }
        (by show 0 ≤ b.count_ + 1; omega) (by show b.count_ + 1 + _ < _; omega)
      rw [this]
      show b.count_ + 1 + _ = _
      omega

/-- C10: for a newly constructed `Beat` and every finite sequence of queries at
arbitrary clock readings of which fewer than `2^31` return DUE, `Count()`
after the sequence equals the number of queries that returned DUE; and
`Count()` returns `count_` and changes no field of any `Beat`. -/
theorem Count_eq_number_of_due (t0 : Int) (ts : List Int)
    (h : ((((Beat.new t0).run ts).1.count true : Nat) : Int) < 2 ^ 31) :
    ((Beat.new t0).run ts).2.Count.1 = ((((Beat.new t0).run ts).1.count true : Nat) : Int) ∧
    ((Beat.new t0).run ts).1.length = ts.length ∧
    ∀ b : Beat, b.Count = (b.count_, b) := by
  refine ⟨?_, Beat.run_length _ _, fun _ => rfl⟩
  have h0 : (0 : Int) ≤ (Beat.new t0).count_ := le_refl _
  have hc : (Beat.new t0).count_ = 0 := rfl
  have := Beat.run_count (Beat.new t0) ts h0 (by rw [hc]; omega)
  rw [hc] at this
  simpa [Beat.Count] using this

/-- Witness of C10: a gate constructed at tick 0, polled five times, two of
them DUE. -/
theorem Count_eq_number_of_due_witness :
    ((((Beat.new 0).run [0, 1000000000, 1000000000, 1500000000, 7000000000]).1.count true
        : Nat) : Int) < 2 ^ 31 ∧
    (((Beat.new 0).run [0, 1000000000, 1000000000, 1500000000, 7000000000]).2.Count.1 =
      ((((Beat.new 0).run [0, 1000000000, 1000000000, 1500000000, 7000000000]).1.count true
        : Nat) : Int) ∧
    ((Beat.new 0).run [0, 1000000000, 1000000000, 1500000000, 7000000000]).1.length =
      [(0 : Int), 1000000000, 1000000000, 1500000000, 7000000000].length ∧
    ∀ b : Beat, b.Count = (b.count_, b)) :=
  ⟨by decide,
    Count_eq_number_of_due 0 [0, 1000000000, 1000000000, 1500000000, 7000000000] (by decide)⟩

/-! ## Theorems: importance order, timer, record fields -/

/-- C11: with importance ordered DEBUG < INFO < WARNING < ERROR, for every
threshold `T` and level `L`, `LOG_IS_ON(L)` holds if and only if the
importance of `L` is at least that of `T`; the enum values reverse the
importance order strictly, the enabled set is upward closed in importance,
ERROR is enabled under every threshold and DEBUG only under threshold DEBUG. -/
theorem LOG_IS_ON_iff_importance_ge (T L : LogLevel) :
    (LOG_IS_ON T L = true ↔ T.importance ≤ L.importance) ∧
    (T.importance < L.importance ↔ L.toInt < T.toInt) ∧
    (∀ K : LogLevel, LOG_IS_ON T L = true → L.importance ≤ K.importance →
      LOG_IS_ON T K = true) ∧
    LOG_IS_ON T LogLevel.ERROR = true ∧
    (LOG_IS_ON T LogLevel.DEBUG = true ↔ T = LogLevel.DEBUG) := by
  refine ⟨?_, ?_, ?_, ?_, ?_⟩
  · cases T <;> cases L <;> decide
  · cases T <;> cases L <;> decide
  · intro K
    cases T <;> cases L <;> cases K <;> decide
  · cases T <;> decide
  · cases T <;> decide

/-- Witness of C11: under threshold WARNING the level WARNING is enabled, so
the more important level ERROR is enabled too. -/
theorem LOG_IS_ON_iff_importance_ge_witness :
    LOG_IS_ON LogLevel.WARNING LogLevel.WARNING = true ∧
    LogLevel.WARNING.importance ≤ LogLevel.ERROR.importance ∧
    LOG_IS_ON LogLevel.WARNING LogLevel.ERROR = true :=
  ⟨by decide, by decide,
    (LOG_IS_ON_iff_importance_ge LogLevel.WARNING LogLevel.WARNING).2.2.1 LogLevel.ERROR
      (by decide) (by decide)⟩

theorem durationCastMilliseconds_of_nonneg {d : Int} (h : 0 ≤ d) :
    durationCastMilliseconds d = d / 1000000 := by
  unfold durationCastMilliseconds ticksPerMillisecond
  exact Int.tdiv_eq_ediv h (by decide)

theorem Timer.Milliseconds_of_in (t : Timer) (now : Int) (h0 : t.start ≤ now)
    (h : InInt64 (now - t.start)) : t.Milliseconds now = (now - t.start) / 1000000 := by
  unfold Timer.Milliseconds
  rw [wrapInt64_of_in h]
  exact durationCastMilliseconds_of_nonneg (by omega)

/-- C12 (amended): for every `Timer` with start instant `s` and every two clock
readings `t1`, `t2` with `s <= t1 <= t2`, no `Reset` in between, such that the
tick difference `t2 - s` fits the signed 64-bit tick count, `Milliseconds`
read at `t1` is `>= 0` and is `<=` `Milliseconds` read at `t2`. -/
theorem Milliseconds_nonneg_monotone (t : Timer) (t1 t2 : Int)
    (h1 : t.start ≤ t1) (h2 : t1 ≤ t2) (hr : InInt64 (t2 - t.start)) :
    0 ≤ t.Milliseconds t1 ∧ t.Milliseconds t1 ≤ t.Milliseconds t2 := by
  have hr1 : InInt64 (t1 - t.start) := by
    unfold InInt64 at hr ⊢
    constructor <;> omega
  rw [Timer.Milliseconds_of_in t t1 h1 hr1, Timer.Milliseconds_of_in t t2 (le_trans h1 h2) hr]
  constructor <;> omega

/-- Witness of C12 (amended): a timer started at tick 5, read 1.5 ms and
2.5 ms later. -/
theorem Milliseconds_nonneg_monotone_witness :
    (Timer.new 5).start ≤ 1500005 ∧ (1500005 : Int) ≤ 2500005 ∧
    InInt64 (2500005 - (Timer.new 5).start) ∧
    (0 ≤ (Timer.new 5).Milliseconds 1500005 ∧
      (Timer.new 5).Milliseconds 1500005 ≤ (Timer.new 5).Milliseconds 2500005) :=
  ⟨by decide, by decide, by decide,
    Milliseconds_nonneg_monotone (Timer.new 5) 1500005 2500005
      (by decide) (by decide) (by decide)⟩

/-- Counterexample to C12 as stated: a timer whose start is tick `-1`, read
at the last clock reading, reports a negative number of milliseconds, smaller
than the `0` it reports at tick `0`. -/
theorem Milliseconds_nonneg_monotone_counterexample :
    (Timer.new (-1)).start ≤ 0 ∧ (0 : Int) ≤ lastTick ∧
    (Timer.new (-1)).Milliseconds 0 = 0 ∧
    (Timer.new (-1)).Milliseconds lastTick = -9223372036854 ∧
    ¬ (0 ≤ (Timer.new (-1)).Milliseconds lastTick) ∧
    ¬ ((Timer.new (-1)).Milliseconds 0 ≤ (Timer.new (-1)).Milliseconds lastTick) := by
  decide

/-- C13 (amended): for every `Timer`, whatever its previous start, after
`Reset()` at clock reading `r`, `Milliseconds` read at reading `r + d`, for
`d >= 0` ticks that fit the signed 64-bit tick count, equals `d` converted to
whole milliseconds rounding toward zero; it is `0` when read at `r` itself, is
`>= 0`, and is `>= D` for every whole number `D` of milliseconds with `d` at
least `D` milliseconds. -/
theorem Milliseconds_after_Reset (t : Timer) (r d : Int) (hd : 0 ≤ d) (hr : InInt64 d) :
    (t.Reset r).Milliseconds (r + d) = Int.tdiv d ticksPerMillisecond ∧
    ((t.Reset r).Milliseconds (r + d) * ticksPerMillisecond ≤ d ∧
      d < ((t.Reset r).Milliseconds (r + d) + 1) * ticksPerMillisecond) ∧
    (t.Reset r).Milliseconds r = 0 ∧
    0 ≤ (t.Reset r).Milliseconds (r + d) ∧
    ∀ D : Int, D * ticksPerMillisecond ≤ d → D ≤ (t.Reset r).Milliseconds (r + d) := by
  have hs : (t.Reset r).start = r := rfl
  have e : r + d - r = d := by omega
  have hm : (t.Reset r).Milliseconds (r + d) = d / 1000000 := by
    rw [Timer.Milliseconds_of_in (t.Reset r) (r + d) (by rw [hs]; omega) (by rw [hs, e]; exact hr),
      hs, e]
  have h0 : (t.Reset r).Milliseconds r = 0 := by
    have hz : InInt64 (r - (t.Reset r).start) := by
      rw [hs]; unfold InInt64; constructor <;> omega
    rw [Timer.Milliseconds_of_in (t.Reset r) r (by rw [hs]) hz, hs]
    omega
  have ht : Int.tdiv d ticksPerMillisecond = d / 1000000 :=
    durationCastMilliseconds_of_nonneg hd
  rw [hm, ht]
  unfold ticksPerMillisecond
  refine ⟨rfl, ⟨by omega, by omega⟩, h0, by omega, ?_⟩
  intro D hD
  omega

/-- Witness of C13 (amended): a timer started at tick 7, reset at tick 100 and
read 2.999999 ms later. -/
theorem Milliseconds_after_Reset_witness :
    (0 : Int) ≤ 2999999 ∧ InInt64 2999999 ∧
    (((Timer.new 7).Reset 100).Milliseconds (100 + 2999999) =
        Int.tdiv 2999999 ticksPerMillisecond ∧
      (((Timer.new 7).Reset 100).Milliseconds (100 + 2999999) * ticksPerMillisecond ≤ 2999999 ∧
        2999999 < (((Timer.new 7).Reset 100).Milliseconds (100 + 2999999) + 1) *
          ticksPerMillisecond) ∧
      ((Timer.new 7).Reset 100).Milliseconds 100 = 0 ∧
      0 ≤ ((Timer.new 7).Reset 100).Milliseconds (100 + 2999999) ∧
      ∀ D : Int, D * ticksPerMillisecond ≤ 2999999 →
        D ≤ ((Timer.new 7).Reset 100).Milliseconds (100 + 2999999)) :=
  ⟨by decide, by decide, Milliseconds_after_Reset (Timer.new 7) 100 2999999 (by decide) (by decide)⟩

/-- Counterexample to C13 as stated: after `Reset()` at tick `-1`, a read
`2^63` ticks later (at the last clock reading) is negative, not `2^63` ticks
converted to milliseconds. -/
theorem Milliseconds_after_Reset_counterexample :
    (0 : Int) ≤ 9223372036854775808 ∧
    (-1 : Int) + 9223372036854775808 = lastTick ∧
    ((Timer.new 7).Reset (-1)).Milliseconds (-1 + 9223372036854775808) = -9223372036854 ∧
    Int.tdiv 9223372036854775808 ticksPerMillisecond = 9223372036854 ∧
    ¬ (0 ≤ ((Timer.new 7).Reset (-1)).Milliseconds (-1 + 9223372036854775808)) := by
  decide

/-- C14: the severity and the captured error code of a record are fixed at
construction: after any chain of appends the level and error code of a record
equal the values given to the constructor (only the text changes); a record
built by `LOG` carries the sentinel `-1`, and a record built by `PLOG` carries
the `errno` value read at construction, before any operand is evaluated. -/
theorem Logger_level_err_fixed {σ : Type} (strerror : Int → String) (sep : String)
    (level : LogLevel) (err : Int) (args : List (Operand σ)) (c : Caller σ)
    (L : LogLevel) (p : Process σ) (h : LOG_IS_ON p.g_log_level L = true) :
    ((appendChain args (Logger.new level err) c).1.level_ = level ∧
      (appendChain args (Logger.new level err) c).1.err_ = err) ∧
    (∀ l : Logger, (appendChain args l c).1.level_ = l.level_ ∧
      (appendChain args l c).1.err_ = l.err_) ∧
    (LOG strerror sep L args p).record.map (fun r => (r.level_, r.err_)) = some (L, -1) ∧
    (PLOG strerror sep L args p).record.map (fun r => (r.level_, r.err_)) =
      some (L, p.caller.errno) := by
  have hle : LogLevel.le L p.g_log_level = true := h
  refine ⟨appendChain_level args _ c, fun l => appendChain_level args l c, ?_, ?_⟩
  · have hl := appendChain_level args (Logger.new L (-1)) p.caller
    simp only [LOG, LOG_cond, hle, if_true, Option.map_some', hl.1, hl.2]
    rfl
  · have hl := appendChain_level args (Logger.new L p.caller.errno) p.caller
    simp only [PLOG, PLOG_cond, hle, if_true, Option.map_some', hl.1, hl.2]
    rfl

/-- Witness of C14: threshold WARNING, level ERROR, `errno = 2` before the
statement and operands that set `errno` to 5. -/
theorem Logger_level_err_fixed_witness :
    LOG_IS_ON sampleProcess.g_log_level LogLevel.ERROR = true ∧
    sampleProcess.caller.errno = 2 ∧
    (PLOG sampleStrerror ": " LogLevel.ERROR
      [countingOperand "a", countingOperand "b"] sampleProcess).proc.caller.errno = 5 ∧
    (LOG sampleStrerror ": " LogLevel.ERROR
      [countingOperand "a", countingOperand "b"] sampleProcess).record.map
        (fun r => (r.level_, r.err_)) = some (LogLevel.ERROR, -1) ∧
    (PLOG sampleStrerror ": " LogLevel.ERROR
      [countingOperand "a", countingOperand "b"] sampleProcess).record.map
        (fun r => (r.level_, r.err_)) = some (LogLevel.ERROR, sampleProcess.caller.errno) :=
  ⟨by decide, by decide, by decide,
    (Logger_level_err_fixed sampleStrerror ": " LogLevel.INFO 7
      [countingOperand "a", countingOperand "b"] sampleProcess.caller LogLevel.ERROR
      sampleProcess (by decide)).2.2⟩

/-! ## Theorems: construction of the gate, rendering, concatenation -/

/-- C15 (amended): for every construction instant `t0`, a `Beat` constructed
at `t0` has period `P` = one second (1000 ms) and count 0.  Provided `t0 + P`
fits the signed 64-bit tick count, `next_ = t0 + P`, a query at `t0` returns
NOT-DUE and a following query at `t0 + P` returns DUE and makes `Count()`
equal 1.  Provided `t0 + 2P` fits as well, a second query at that same reading
`t0 + P` returns NOT-DUE with `Count()` still 1. -/
theorem Beat_new_first_period (t0 : Int) :
    ((Beat.new t0).period_ = 1000 * ticksPerMillisecond ∧ (Beat.new t0).count_ = 0) ∧
    (InInt64 (t0 + 1000 * ticksPerMillisecond) →
      (Beat.new t0).next_ = t0 + 1000 * ticksPerMillisecond ∧
      (Beat.new t0).toBool t0 = (false, Beat.new t0) ∧
      ((Beat.new t0).run [t0, t0 + 1000 * ticksPerMillisecond]).1 = [false, true] ∧
      ((Beat.new t0).run [t0, t0 + 1000 * ticksPerMillisecond]).2.Count.1 = 1) ∧
    (InInt64 (t0 + 1000 * ticksPerMillisecond) →
      InInt64 (t0 + 2 * (1000 * ticksPerMillisecond)) →
      (Beat.new t0).run
          [t0, t0 + 1000 * ticksPerMillisecond, t0 + 1000 * ticksPerMillisecond] =
        ([false, true, false],
          { period_ := 1000 * ticksPerMillisecond
            next_ := t0 + 2 * (1000 * ticksPerMillisecond)
            count_ := 1 }) ∧
      ((Beat.new t0).run
        [t0, t0 + 1000 * ticksPerMillisecond, t0 + 1000 * ticksPerMillisecond]).2.Count.1 =
          1) := by
  have hP : ticksPerMillisecond = 1000000 := rfl
  have hp : (Beat.new t0).period_ = 1000 * ticksPerMillisecond := rfl
  have hc : (Beat.new t0).count_ = 0 := rfl
  have key : InInt64 (t0 + 1000 * ticksPerMillisecond) →
      (Beat.new t0).next_ = t0 + 1000 * ticksPerMillisecond ∧
      (Beat.new t0).toBool t0 = (false, Beat.new t0) ∧
      (Beat.new t0).toBool (t0 + 1000 * ticksPerMillisecond) =
        (true, { period_ := 1000 * ticksPerMillisecond
                 next_ := wrapInt64 (t0 + 2 * (1000 * ticksPerMillisecond))
                 count_ := 1 }) := by
    intro h1
    have hn : (Beat.new t0).next_ = t0 + 1000 * ticksPerMillisecond := wrapInt64_of_in h1
    refine ⟨hn, Beat.toBool_of_lt _ _ (by rw [hn, hP]; omega), ?_⟩
    rw [Beat.toBool_of_le _ _ (le_of_eq hn), hp, hc]
    have e : t0 + 1000 * ticksPerMillisecond + 1000 * ticksPerMillisecond =
        t0 + 2 * (1000 * ticksPerMillisecond) := by ring
    rw [e]
    rfl
  refine ⟨⟨hp, hc⟩, ?_, ?_⟩
  · intro h1
    obtain ⟨hn, q1, q2⟩ := key h1
    refine ⟨hn, q1, ?_, ?_⟩
    · simp only [Beat.run_cons, Beat.run_nil, q1, q2]
    · simp only [Beat.run_cons, Beat.run_nil, q1, q2, Beat.Count]
  · intro h1 h2
    obtain ⟨_, q1, q2⟩ := key h1
    rw [wrapInt64_of_in h2] at q2
    have q3 : ({ period_ := 1000 * ticksPerMillisecond
                 next_ := t0 + 2 * (1000 * ticksPerMillisecond)
                 count_ := 1 } : Beat).toBool (t0 + 1000 * ticksPerMillisecond) =
        (false, { period_ := 1000 * ticksPerMillisecond
                  next_ := t0 + 2 * (1000 * ticksPerMillisecond)
                  count_ := 1 }) :=
      Beat.toBool_of_lt _ _ (by show _ < t0 + 2 * (1000 * ticksPerMillisecond); rw [hP]; omega)
    constructor
    · simp only [Beat.run_cons, Beat.run_nil, q1, q2, q3]
    · simp only [Beat.run_cons, Beat.run_nil, q1, q2, q3, Beat.Count]

/-- Witness of C15 (amended): construction at tick 42. -/
theorem Beat_new_first_period_witness :
    InInt64 (42 + 1000 * ticksPerMillisecond) ∧
    InInt64 (42 + 2 * (1000 * ticksPerMillisecond)) ∧
    ((Beat.new 42).next_ = 42 + 1000 * ticksPerMillisecond ∧
      (Beat.new 42).toBool 42 = (false, Beat.new 42) ∧
      ((Beat.new 42).run [42, 42 + 1000 * ticksPerMillisecond]).1 = [false, true] ∧
      ((Beat.new 42).run [42, 42 + 1000 * ticksPerMillisecond]).2.Count.1 = 1) ∧
    ((Beat.new 42).run
        [42, 42 + 1000 * ticksPerMillisecond, 42 + 1000 * ticksPerMillisecond] =
      ([false, true, false],
        { period_ := 1000 * ticksPerMillisecond
          next_ := 42 + 2 * (1000 * ticksPerMillisecond)
          count_ := 1 }) ∧
    ((Beat.new 42).run
      [42, 42 + 1000 * ticksPerMillisecond, 42 + 1000 * ticksPerMillisecond]).2.Count.1 = 1) :=
  ⟨by decide, by decide, (Beat_new_first_period 42).2.1 (by decide),
    (Beat_new_first_period 42).2.2 (by decide) (by decide)⟩

/-- Counterexample to C15 as stated: for a gate constructed one period before
the last clock reading, the query at `t0 + P` is DUE and the second query at
that same reading is DUE again, leaving the count at 2; and a gate constructed
at the last clock reading has `next_` below `t0` and is DUE when queried at
`t0`. -/
theorem Beat_new_first_period_counterexample :
    (lastTick - 1000000000 + 1000 * ticksPerMillisecond = lastTick ∧
      (Beat.new (lastTick - 1000000000)).run [lastTick - 1000000000, lastTick, lastTick] =
        ([false, true, true],
          { period_ := 1000000000, next_ := -9223372035854775809, count_ := 2 }) ∧
      ((Beat.new (lastTick - 1000000000)).run
        [lastTick - 1000000000, lastTick, lastTick]).2.Count.1 = 2) ∧
    ((Beat.new lastTick).next_ = -9223372035854775809 ∧
      (Beat.new lastTick).next_ ≠ lastTick + 1000 * ticksPerMillisecond ∧
      ((Beat.new lastTick).toBool lastTick).1 = true) := by
  decide

theorem toString_int_data (v : Int) :
    (toString v).data = (if v < 0 then ['-'] else []) ++ Nat.toDigits 10 v.natAbs := by
  cases v with
  | ofNat m =>
    have : ¬ (Int.ofNat m < 0) := by simp
    simp [this, toString, Nat.repr, List.asString]
  | negSucc m =>
    have : (Int.negSucc m < 0) := Int.negSucc_lt_zero m
    simp [this, toString, Nat.repr, List.asString]

theorem groupDigitsRev_of_groupsNothing (sep : Char) (fuel : Nat) (gs : List Nat)
    (ds : List Char) (h : groupsNothing gs ds.length) : groupDigitsRev sep fuel gs ds = ds := by
  cases fuel with
  | zero => rfl
  | succ n =>
    cases gs with
    | nil => rfl
    | cons g rest =>
      have hg : g = 0 ∨ ds.length ≤ g := h
      simp [groupDigitsRev, hg]

theorem OStream.longField_dec (s : OStream) (v : Int) (hb : s.basefield = Basefield.dec)
    (hp : s.showpos = false ∨ v < 0) (hw : s.width ≤ (toString v).length)
    (hgr : groupsNothing s.grouping (Nat.toDigits 10 v.natAbs).length) :
    s.longField v = (toString v).data := by
  have hd : s.digitsOf v = Nat.toDigits 10 v.natAbs := by simp [OStream.digitsOf, hb]
  have hgd : s.groupedDigits v = Nat.toDigits 10 v.natAbs := by
    unfold OStream.groupedDigits
    rw [hd, groupDigitsRev_of_groupsNothing _ _ _ _ (by simpa using hgr), List.reverse_reverse]
  have hsg : s.signOf v = if v < 0 then ['-'] else [] := by
    unfold OStream.signOf
    rw [hb]
    rcases hp with hp | hp
    · simp [hp]
    · simp [hp]
  have hbm : s.baseMark v = [] := by simp [OStream.baseMark, hb]
  have hlen : (toString v).length = (s.signOf v).length + (Nat.toDigits 10 v.natAbs).length := by
    rw [hsg]
    show (toString v).data.length = _
    rw [toString_int_data, List.length_append]
  have hpd : s.padding ((s.signOf v).length + (s.baseMark v).length + (s.groupedDigits v).length)
      = [] := by
    unfold OStream.padding
    rw [hbm, hgd, List.length_nil, Nat.add_zero, ← hlen, Nat.sub_eq_zero_of_le hw]
    rfl
  unfold OStream.longField
  simp only [hpd]
  rw [hbm, hgd, toString_int_data, ← hsg]
  cases s.adjustfield <;> simp

/-- C16 (amended): for every `Timer` and clock reading, on a stream that is
good, whose `basefield` is decimal, on which `showpos` is unset or the value
negative, whose width does not exceed the length of the numeral, and whose
locale inserts no thousands separator into the numeral, what `operator<<`
writes is the decimal numeral of the value `Milliseconds()` returns at that
reading, immediately followed by `" ms"`, and nothing else. -/
theorem Timer_print_default_format (out : OStream) (t : Timer) (now : Int)
    (hg : out.good = true) (hb : out.basefield = Basefield.dec)
    (hp : out.showpos = false ∨ t.Milliseconds now < 0)
    (hw : out.width ≤ (toString (t.Milliseconds now)).length)
    (hgr : groupsNothing out.grouping (Nat.toDigits 10 (t.Milliseconds now).natAbs).length) :
    (Timer.print out t now).text = out.text ++ (toString (t.Milliseconds now) ++ " ms") := by
  unfold Timer.print OStream.putLong
  rw [if_pos hg]
  unfold OStream.putString
  simp only [hg, if_true, OStream.padding, Nat.zero_sub, List.replicate_zero, List.append_nil,
    List.nil_append]
  rw [OStream.longField_dec out _ hb hp hw hgr]
  apply String.ext
  cases out.adjustfield <;> simp [String.append_assoc]

/-- Witness of C16 (amended): a freshly initialised stream holding `t=`, and a
timer started at tick 0 read 1.5 s later. -/
theorem Timer_print_default_format_witness :
    (OStream.init "t=").good = true ∧
    (OStream.init "t=").basefield = Basefield.dec ∧
    ((OStream.init "t=").showpos = false ∨ (Timer.new 0).Milliseconds 1500000000 < 0) ∧
    (OStream.init "t=").width ≤ (toString ((Timer.new 0).Milliseconds 1500000000)).length ∧
    groupsNothing (OStream.init "t=").grouping
      (Nat.toDigits 10 ((Timer.new 0).Milliseconds 1500000000).natAbs).length ∧
    (Timer.print (OStream.init "t=") (Timer.new 0) 1500000000).text =
      (OStream.init "t=").text ++ (toString ((Timer.new 0).Milliseconds 1500000000) ++ " ms") ∧
    (OStream.init "t=").text ++ (toString ((Timer.new 0).Milliseconds 1500000000) ++ " ms") =
      "t=1500 ms" :=
  ⟨by decide, by decide, by decide, by decide, by decide,
    Timer_print_default_format (OStream.init "t=") (Timer.new 0) 1500000000
      (by decide) (by decide) (by decide) (by decide) (by decide),
    by decide⟩

/-- Counterexample to C16 as stated: a timer reading 255 ms is written as
`ff ms` on a hexadecimal stream, `+255 ms` with `showpos`, `***255 ms` in a
field of width 6, and not at all on a failed stream; a timer reading 1500 ms is
written as `1,500 ms` under a grouping locale.  None is the decimal numeral
followed by `" ms"`. -/
theorem Timer_print_default_format_counterexample :
    (Timer.new 0).Milliseconds 255000000 = 255 ∧
    toString (255 : Int) ++ " ms" = "255 ms" ∧
    (Timer.print hexStream (Timer.new 0) 255000000).text = "ff ms" ∧
    (Timer.print showposStream (Timer.new 0) 255000000).text = "+255 ms" ∧
    (Timer.print widthStream (Timer.new 0) 255000000).text = "***255 ms" ∧
    (Timer.print failedStream (Timer.new 0) 255000000).text = "" ∧
    (Timer.new 0).Milliseconds 1500000000 = 1500 ∧
    toString (1500 : Int) ++ " ms" = "1500 ms" ∧
    (Timer.print groupingStream (Timer.new 0) 1500000000).text = "1,500 ms" ∧
    (Timer.print hexStream (Timer.new 0) 255000000).text ≠
      hexStream.text ++ (toString ((Timer.new 0).Milliseconds 255000000) ++ " ms") := by
  decide

theorem foldl_append_eq (xs : List String) (acc : String) :
    xs.foldl (fun out a => out ++ a) acc = acc ++ concatTexts xs := by
  induction xs generalizing acc with
  | nil => simp [concatTexts]
  | cons a rest ih => rw [List.foldl_cons, ih, concatTexts, String.append_assoc]

theorem StrCat_eq_concatTexts (xs : List String) : StrCat xs = concatTexts xs := by
  unfold StrCat
  rw [foldl_append_eq]
  exact String.empty_append _

theorem renderings_valueOperand {σ : Type} (xs : List String) (c : Caller σ) :
    renderings (xs.map valueOperand) c = xs ∧ afterOperands (xs.map valueOperand) c = c := by
  induction xs with
  | nil => exact ⟨rfl, rfl⟩
  | cons a rest ih =>
    have h1 : renderings (valueOperand a :: rest.map valueOperand) c =
        a :: renderings (rest.map valueOperand) c := rfl
    have h2 : afterOperands (valueOperand a :: rest.map valueOperand) c =
        afterOperands (rest.map valueOperand) c := rfl
    rw [List.map_cons, h1, h2, ih.1, ih.2]
    exact ⟨rfl, rfl⟩

theorem appendChain_oss_concatTexts {σ : Type} (args : List (Operand σ)) (l : Logger)
    (c : Caller σ) :
    (appendChain args l c).1.oss_ = l.oss_ ++ concatTexts (renderings args c) := by
  induction args generalizing l c with
  | nil => simp [appendChain, renderings, concatTexts]
  | cons a rest ih =>
    rw [appendChain, ih, renderings, concatTexts]
    simp [Logger.shl, String.append_assoc]

/-- C18: for every level, error code and finite sequence of values with
stateless renderings, the text a `Logger` holds after
`Logger(level, err) << a1 << ... << an` equals `StrCat(a1, ..., an)`; more
generally, for arbitrary operands the text equals `StrCat` of the texts the
operands yielded, in call order. -/
theorem Logger_chain_eq_StrCat {σ : Type} (level : LogLevel) (err : Int)
    (xs : List String) (args : List (Operand σ)) (c : Caller σ) :
    (appendChain (xs.map valueOperand) (Logger.new level err) c).1.oss_ = StrCat xs ∧
    (appendChain args (Logger.new level err) c).1.oss_ = StrCat (renderings args c) := by
  constructor
  · rw [appendChain_oss_concatTexts, (renderings_valueOperand xs c).1, StrCat_eq_concatTexts]
    exact String.empty_append _
  · rw [appendChain_oss_concatTexts, StrCat_eq_concatTexts]
    exact String.empty_append _

/-! ## Theorems: firing-rate invariant -/

end MountZip
